import Mathlib

/-!
Verification development for the Sydney lightrail service-status alert
pipeline (`lightrail_service_status_alert.py` together with the store
operations of `bigquery_interface.py`).

The feed entities are modelled as nested records of optional fields, one
`Option` layer per dictionary key or list index the Python code dereferences;
a missing layer corresponds to the `KeyError`/`IndexError` that the source
catches.  The orchestrator `main` is modelled as a pure state-transition
function over an explicit store (list of rows) plus a trace of the external
calls it performs (table check/create, existence check, insert, email send).
-/

namespace Lightrail

/-- One element of a `translation` list: a dictionary that may carry a
`text` key. -/
structure TranslationObj where
  text : Option String
deriving DecidableEq

/-- A translated-string object as in the GTFS feed: a dictionary that may
carry a `translation` list. -/
structure TranslatedString where
  translation : Option (List TranslationObj)
deriving DecidableEq

/-- One element of the `activePeriod` list, with optional epoch-second
fields `start` and `end` (the latter named `end_` since `end` is a Lean
keyword). -/
structure ActivePeriodEntry where
  start : Option String
  end_ : Option String
deriving DecidableEq

/-- One element of the `informedEntity` list. -/
structure InformedEntity where
  routeId : Option String
  directionId : Option Int
deriving DecidableEq

/-- The `alert` sub-dictionary of a feed entity. -/
structure AlertBody where
  url : Option TranslatedString
  headerText : Option TranslatedString
  descriptionText : Option TranslatedString
  activePeriod : Option (List ActivePeriodEntry)
  informedEntity : Option (List InformedEntity)
deriving DecidableEq

/-- One raw feed entity: `id` plus the `alert` sub-dictionary. -/
structure RawEntity where
  id : Option String
  alert : Option AlertBody
deriving DecidableEq

/-- The parsed JSON response: the top-level `entity` list. -/
structure Feed where
  entity : List RawEntity
deriving DecidableEq

/-- The dictionary built by `process_response_alert` on success. Field
order matches the Python dict literal (and hence dict iteration order). -/
structure ProcessedAlert where
  alert_id : String
  url : String
  title : String
  description_html : String
  formatted_start_date : String
  formatted_end_date : String
  l1_line_impacted : Bool
deriving DecidableEq

/-- Dereference `x["translation"][0]["text"]` on an optional
translated-string object; `none` models the `KeyError`/`IndexError` path. -/
def getTranslationText (t : Option TranslatedString) : Option String := do
  let ts ← t
  let l ← ts.translation
  let first ← l.head?
  first.text

/-- Decimal digits to a natural number; `none` on a non-digit or on the
empty string. -/
def digitsToNat : List Char → Option Nat
  | [] => none
  | cs => cs.foldlM
      (fun acc c => if c.isDigit then some (acc * 10 + (c.toNat - 48)) else none) 0

/-- Model of Python `int()` applied to the epoch-second string: an optional
sign followed by decimal digits; `none` models the `ValueError` path. -/
def pyInt (s : String) : Option Int :=
  match s.data with
  | '-' :: rest => (digitsToNat rest).map (fun n => -(n : Int))
  | cs => (digitsToNat cs).map (fun n => (n : Int))

/-- Epoch value used for the start date:
`int(entity["alert"]["activePeriod"][0]["start"])`. -/
def startEpoch (a : AlertBody) : Option Int := do
  let ap ← a.activePeriod
  let first ← ap.head?
  let s ← first.start
  pyInt s

/-- Epoch value used for the end date:
`int(entity["alert"]["activePeriod"][-1]["end"])`. -/
def endEpoch (a : AlertBody) : Option Int := do
  let ap ← a.activePeriod
  let last ← ap.getLast?
  let s ← last.end_
  pyInt s

/-- Model of `description.replace("\n", "")`: remove every newline character. -/
def stripNewlines (s : String) : String := ⟨s.data.filter (fun c => c ≠ '\n')⟩

/-- One iteration of the `informedEntity` loop body.  Python evaluates
`line["routeId"] == "IWLR-191" and line["directionId"] == 1` and the
analogous `== 0` test: `routeId` is always dereferenced, `directionId`
only when the route matches (short-circuit `and`); a missing key is a
`KeyError`, modelled as `none`. -/
def lineImpacted (line : InformedEntity) : Option Bool := do
  let r ← line.routeId
  if r = "IWLR-191" then
    let d ← line.directionId
    pure (decide (d = 1) || decide (d = 0))
  else
    pure false

/-- The full `informedEntity` loop computing `l1_line_impacted`: every
line is visited (no break), and the first missing key fails the record. -/
def computeImpacted : List InformedEntity → Option Bool
  | [] => some false
  | line :: rest => do
    let b ← lineImpacted line
    let brest ← computeImpacted rest
    pure (b || brest)

/-- The canonicalizer `process_response_alert`, parameterised by `fmt`, the model of
`datetime.fromtimestamp` + `strftime` (`none` models an out-of-range
timestamp error; any such failure is caught and degrades the field to
`"NULL"`).  `none` overall models the `return None` failure paths. -/
def process_response_alert (fmt : Int → Option String) (entity : RawEntity) :
    Option ProcessedAlert := do
  let alert_id ← entity.id
  let a ← entity.alert
  let url ← getTranslationText a.url
  let title ← getTranslationText a.headerText
  let descriptionRaw ← getTranslationText a.descriptionText
  let description_html := stripNewlines descriptionRaw
  let formatted_start_date := ((startEpoch a).bind fmt).getD "NULL"
  let formatted_end_date := ((endEpoch a).bind fmt).getD "NULL"
  let informed ← a.informedEntity
  let l1_line_impacted ← computeImpacted informed
  pure { alert_id, url, title, description_html,
         formatted_start_date, formatted_end_date, l1_line_impacted }

/-! ### Store model (`bigquery_interface.py`) -/

/-- One row of the BigQuery table (schema of `create_new_table`);
`creation_date` is the store-side `CURRENT_DATETIME` stamp, modelled as the
store clock value of the run performing the insert. -/
structure StoreRow where
  alert_id : String
  url : String
  title : String
  description_html : String
  start_date : String
  end_date : String
  l1_line_impacted : Bool
  creation_date : Nat
deriving DecidableEq

/-- The durable store: whether the table exists, and its rows. -/
structure StoreState where
  tableExists : Bool
  rows : List StoreRow
deriving DecidableEq

/-- The novelty check `check_alert_id_is_unique`: the `COUNT(*) WHERE alert_id = @alert_id`
existence query — despite its name it returns `true` when the id already
EXISTS in the table. -/
def check_alert_id_is_unique (rows : List StoreRow) (processed_alert : ProcessedAlert) :
    Bool :=
  rows.any (fun r => r.alert_id == processed_alert.alert_id)

/-- The persistence step `insert_values_into_table`: append one row built from the processed
alert, stamping `creation_date` with the store clock `now`. -/
def insert_values_into_table (now : Nat) (rows : List StoreRow)
    (a : ProcessedAlert) : List StoreRow :=
  rows ++ [{ alert_id := a.alert_id, url := a.url, title := a.title,
             description_html := a.description_html,
             start_date := a.formatted_start_date,
             end_date := a.formatted_end_date,
             l1_line_impacted := a.l1_line_impacted,
             creation_date := now }]

/-! ### Orchestrator model (`main` of `lightrail_service_status_alert.py`) -/

/-- External calls performed by a run, in order. -/
inductive Event where
  | checkTable
  | createTable
  | checkId (alert_id : String)
  | insertRow (alert : ProcessedAlert)
  | sendEmail (alerts : List ProcessedAlert)
deriving DecidableEq

/-- The environment of one run: the fetched payload (`none` models
`fetch_data` returning `None`), whether the store raises
`GoogleCloudError` on the existence check or on the insert, whether the
SMTP send succeeds, and the store clock. -/
structure World where
  response : Option Feed
  storeCheckFails : Bool
  storeInsertFails : Bool
  emailOk : Bool
  now : Nat
deriving DecidableEq

/-- Mutable state threaded through the per-entity loop of `main`. -/
structure LoopState where
  store : StoreState
  pending : List ProcessedAlert
  events : List Event
deriving DecidableEq

/-- How the per-entity loop aborts, carrying the state at the abort:
an unprocessable entity (the `return (..., 500)` at line 225) or an
uncaught `GoogleCloudError` from the store. -/
inductive LoopAbort where
  | malformed (e : RawEntity) (st : LoopState)
  | storeError (st : LoopState)
deriving DecidableEq

/-- One iteration of the loop `for idx, entity in enumerate(...)`:
process the entity (abort the run on `None`), and for a relevant alert run
the novelty check and, when the id is absent, the insert and the append to
`alerts_to_email`. -/
def stepEntity (fmt : Int → Option String) (w : World) (st : LoopState)
    (e : RawEntity) : Except LoopAbort LoopState :=
  match process_response_alert fmt e with
  | none => .error (.malformed e st)
  | some pa =>
    if pa.l1_line_impacted then
      if w.storeCheckFails then .error (.storeError st)
      else if check_alert_id_is_unique st.store.rows pa then
        .ok { st with events := st.events ++ [.checkId pa.alert_id] }
      else if w.storeInsertFails then
        .error (.storeError { st with events := st.events ++ [.checkId pa.alert_id] })
      else
        .ok { store := { st.store with
                         rows := insert_values_into_table w.now st.store.rows pa },
              pending := st.pending ++ [pa],
              events := st.events ++ [.checkId pa.alert_id, .insertRow pa] }
    else .ok st

/-- The whole per-entity loop, in feed order. -/
def runLoop (fmt : Int → Option String) (w : World) :
    List RawEntity → LoopState → Except LoopAbort LoopState
  | [], st => .ok st
  | e :: rest, st =>
    match stepEntity fmt w st e with
    | .error a => .error a
    | .ok st' => runLoop fmt w rest st'

/-- Model of the `check_table_exists` / `create_new_table` provisioning: a fresh table
is empty. -/
def provisionStore (s : StoreState) : StoreState :=
  if s.tableExists then s else { tableExists := true, rows := [] }

/-- Events of the provisioning step. -/
def provisionEvents (s : StoreState) : List Event :=
  if s.tableExists then [.checkTable] else [.checkTable, .createTable]

/-- Loop state at entry of the per-entity loop. -/
def initLoopState (s : StoreState) : LoopState :=
  { store := provisionStore s, pending := [], events := provisionEvents s }

/-- Caller-facing terminal behaviour of `main`: either the returned
`(message, status)` tuple, or an uncaught store exception escaping `main`. -/
inductive RunOutcome where
  | returned (msg : String) (code : Nat)
  | storeException
deriving DecidableEq

/-- Result of one run: outcome, final store, and the external calls made. -/
structure RunResult where
  outcome : RunOutcome
  store : StoreState
  events : List Event
deriving DecidableEq

/-- Render an optional string the way the error message interpolation
sees it. -/
def optStr : Option String → String
  | none => "None"
  | some s => s

/-- Rendering helpers standing in for Python string interpolation of the
entity in the `f"Error: Unable to process result {entity}"` message. -/
def listRender {α : Type} (f : α → String) (l : List α) : String :=
  "[" ++ String.intercalate ", " (l.map f) ++ "]"

def translationObjStr (t : TranslationObj) : String :=
  "(text=" ++ optStr t.text ++ ")"

def translatedStringStr (t : TranslatedString) : String :=
  "(translation=" ++
    (match t.translation with
     | none => "None"
     | some l => listRender translationObjStr l) ++ ")"

def activePeriodEntryStr (p : ActivePeriodEntry) : String :=
  "(start=" ++ optStr p.start ++ ", end=" ++ optStr p.end_ ++ ")"

def informedEntityStr (l : InformedEntity) : String :=
  "(routeId=" ++ optStr l.routeId ++ ", directionId=" ++
    (match l.directionId with
     | none => "None"
     | some d => toString d) ++ ")"

def alertBodyStr (a : AlertBody) : String :=
  "(url=" ++ (match a.url with | none => "None" | some u => translatedStringStr u) ++
  ", headerText=" ++
    (match a.headerText with | none => "None" | some u => translatedStringStr u) ++
  ", descriptionText=" ++
    (match a.descriptionText with | none => "None" | some u => translatedStringStr u) ++
  ", activePeriod=" ++
    (match a.activePeriod with
     | none => "None"
     | some l => listRender activePeriodEntryStr l) ++
  ", informedEntity=" ++
    (match a.informedEntity with
     | none => "None"
     | some l => listRender informedEntityStr l) ++ ")"

def entityStr (e : RawEntity) : String :=
  "(id=" ++ optStr e.id ++ ", alert=" ++
    (match e.alert with | none => "None" | some a => alertBodyStr a) ++ ")"

/-- The body renderer `format_email_body`: one `<field>: <value>` line per dict entry, in
dict insertion order; booleans render as Python `True`/`False`. -/
def pyBoolStr (b : Bool) : String := if b then "True" else "False"

def format_email_body (a : ProcessedAlert) : String :=
  "alert_id: " ++ a.alert_id ++ "\n" ++
  "url: " ++ a.url ++ "\n" ++
  "title: " ++ a.title ++ "\n" ++
  "description_html: " ++ a.description_html ++ "\n" ++
  "formatted_start_date: " ++ a.formatted_start_date ++ "\n" ++
  "formatted_end_date: " ++ a.formatted_end_date ++ "\n" ++
  "l1_line_impacted: " ++ pyBoolStr a.l1_line_impacted ++ "\n"

/-- The body `send_email` attaches: `"===\n".join(email_body_content)`. -/
def send_email_rendered (alerts : List ProcessedAlert) : String :=
  String.intercalate "===\n" (alerts.map format_email_body)

/-- The orchestrator `main`, as a function of the run environment and the
store state.  Mirrors the source control flow: fetch guard, table
provisioning, per-entity loop, then the batched email step. -/
def mainRun (fmt : Int → Option String) (w : World) (s0 : StoreState) : RunResult :=
  match w.response with
  | none =>
    { outcome := .returned "Error: The API response is invalid" 500,
      store := s0, events := [] }
  | some feed =>
    match runLoop fmt w feed.entity (initLoopState s0) with
    | .error (.malformed e st) =>
      { outcome := .returned ("Error: Unable to process result " ++ entityStr e) 500,
        store := st.store, events := st.events }
    | .error (.storeError st) =>
      { outcome := .storeException, store := st.store, events := st.events }
    | .ok st =>
      if st.pending.length > 0 then
        if w.emailOk then
          { outcome := .returned "Complete." 200,
            store := st.store, events := st.events ++ [.sendEmail st.pending] }
        else
          { outcome := .returned "Error: Unable to send email." 500,
            store := st.store, events := st.events ++ [.sendEmail st.pending] }
      else
        { outcome := .returned "Complete." 200, store := st.store, events := st.events }

/-- Final store after a sequence of sequential runs. -/
def runSeq (fmt : Int → Option String) (ws : List World) (s : StoreState) : StoreState :=
  ws.foldl (fun s w => (mainRun fmt w s).store) s

/-- The run results of a sequence of sequential runs, each starting from
the store the previous one left behind. -/
def laterRuns (fmt : Int → Option String) : List World → StoreState → List RunResult
  | [], _ => []
  | w :: rest, s => mainRun fmt w s :: laterRuns fmt rest (mainRun fmt w s).store

end Lightrail

section scratch
open Lightrail

def trTx (s : String) : TranslatedString :=
  { translation := some [{ text := some s }] }

def goodEntity : RawEntity :=
  { id := some "A1"
    alert := some
      { url := some (trTx "http://x")
        headerText := some (trTx "T")
        descriptionText := some (trTx "D")
        activePeriod := some [{ start := some "100", end_ := some "200" }]
        informedEntity := some [{ routeId := some "IWLR-191", directionId := some 0 }] } }

def exFmt : Int → Option String := fun n => some (toString n)

def exWorld : World :=
  { response := some { entity := [goodEntity] }
    storeCheckFails := false
    storeInsertFails := false
    emailOk := true
    now := 7 }

def exStore : StoreState := { tableExists := true, rows := [] }

/-- The canonical alert `process_response_alert` produces for `goodEntity`
under `exFmt`. -/
def processedGood : ProcessedAlert :=
  { alert_id := "A1", url := "http://x", title := "T", description_html := "D",
    formatted_start_date := "100", formatted_end_date := "200",
    l1_line_impacted := true }

/-- The row `insert_values_into_table` appends for `processedGood` at store
clock 7. -/
def insertedRowGood : StoreRow :=
  { alert_id := "A1", url := "http://x", title := "T", description_html := "D",
    start_date := "100", end_date := "200", l1_line_impacted := true,
    creation_date := 7 }

/-- Loop state after the per-entity loop of a run of `exWorld` from
`exStore`. -/
def stGood : LoopState :=
  { store := { tableExists := true, rows := [insertedRowGood] }
    pending := [processedGood]
    events := [Event.checkTable, Event.checkId "A1", Event.insertRow processedGood] }

/-- An unprocessable entity: no `id` key. -/
def badEntity : RawEntity := { id := none, alert := goodEntity.alert }

/-- A pre-populated store holding one unrelated row. -/
def exRowB : StoreRow :=
  { alert_id := "B1", url := "u", title := "t", description_html := "d",
    start_date := "s", end_date := "e", l1_line_impacted := true,
    creation_date := 0 }

def exStoreB : StoreState := { tableExists := true, rows := [exRowB] }

/-- Alert body whose four required fields are present but whose
`informedEntity` key is absent. -/
def cexAlertBody : AlertBody :=
  { url := some (trTx "u"), headerText := some (trTx "h"),
    descriptionText := some (trTx "d"),
    activePeriod := some [{ start := some "100", end_ := some "200" }],
    informedEntity := none }

/-- Entity with `id`, `url`, `title`, `description` all present but no
`informedEntity`. -/
def cexEntity : RawEntity := { id := some "A1", alert := some cexAlertBody }

/-- Alert body with an empty `activePeriod` list (timestamps degrade). -/
def degAlertBody : AlertBody :=
  { url := some (trTx "u"), headerText := some (trTx "h"),
    descriptionText := some (trTx "d"),
    activePeriod := some [], informedEntity := some [] }

def degEntity : RawEntity := { id := some "A2", alert := some degAlertBody }

/-- What `process_response_alert` yields for `degEntity`. -/
def degProcessed : ProcessedAlert :=
  { alert_id := "A2", url := "u", title := "h", description_html := "d",
    formatted_start_date := "NULL", formatted_end_date := "NULL",
    l1_line_impacted := false }

/-- Environment whose store raises on the existence check. -/
def cexWorldCheckFails : World :=
  { response := some { entity := [goodEntity] }
    storeCheckFails := true, storeInsertFails := false, emailOk := true, now := 0 }

/-- Environment whose SMTP send fails. -/
def exWorldMailFails : World := { exWorld with emailOk := false }

/-- Environment whose feed contains a malformed entity after a good one. -/
def exWorldBadSecond : World :=
  { response := some { entity := [goodEntity, badEntity] }
    storeCheckFails := false, storeInsertFails := false, emailOk := true, now := 7 }

/-- Environment whose feed holds only the malformed entity. -/
def exWorldBadOnly : World :=
  { response := some { entity := [badEntity] }
    storeCheckFails := false, storeInsertFails := false, emailOk := true, now := 7 }

/-- Environment whose feed holds the malformed entity followed by a good
one. -/
def exWorldBadThenGood : World :=
  { response := some { entity := [badEntity, goodEntity] }
    storeCheckFails := false, storeInsertFails := false, emailOk := true, now := 7 }

/-- Environment with no payload (fetch failure). -/
def exWorldNoFeed : World :=
  { response := none
    storeCheckFails := false, storeInsertFails := false, emailOk := true, now := 7 }

/-- An informed entity matching the configured route in direction 0. -/
def ieGood : InformedEntity := { routeId := some "IWLR-191", directionId := some 0 }

end scratch

namespace Lightrail

/-! ### Helper predicates -/

/-- The alert ids stored in the table. -/
def rowIds (rows : List StoreRow) : List String := rows.map (fun r => r.alert_id)

/-- The table has a row with the given alert id. -/
def hasRowId (rows : List StoreRow) (i : String) : Prop := ∃ r ∈ rows, r.alert_id = i

/-- Events the per-entity loop may add: existence checks and inserts only. -/
def loopEvent (x : Event) : Prop :=
  (∃ i, x = Event.checkId i) ∨ ∃ pa, x = Event.insertRow pa

/-- The later loop state extends the earlier one: same table flag, rows,
pending alerts and events only appended, and every appended event is a
check or an insert. -/
def LoopExtends (st st' : LoopState) : Prop :=
  st'.store.tableExists = st.store.tableExists ∧
  (∃ rs, st'.store.rows = st.store.rows ++ rs) ∧
  (∃ ps, st'.pending = st.pending ++ ps) ∧
  (∃ es, st'.events = st.events ++ es ∧ ∀ x ∈ es, loopEvent x)

/-- State carried out of the loop, whether it completed or aborted. -/
def loopFinal : Except LoopAbort LoopState → LoopState
  | .ok st => st
  | .error (.malformed _ st) => st
  | .error (.storeError st) => st

/-- Invariant: every insert event recorded so far has left a row with its
alert id in the store. -/
def InsRowsInv (st : LoopState) : Prop :=
  ∀ pa, Event.insertRow pa ∈ st.events → hasRowId st.store.rows pa.alert_id

/-- Invariant used for the lost-notification claim: the id `i` is already
stored, no pending alert carries it, and no insert event carries it. -/
def IdBlockedInv (i : String) (st : LoopState) : Prop :=
  hasRowId st.store.rows i ∧
  (∀ q ∈ st.pending, q.alert_id ≠ i) ∧
  (∀ q, Event.insertRow q ∈ st.events → q.alert_id ≠ i)

/-! ### Basic lemmas -/

theorem check_eq_true_iff (rows : List StoreRow) (pa : ProcessedAlert) :
    check_alert_id_is_unique rows pa = true ↔ hasRowId rows pa.alert_id := by
  simp [check_alert_id_is_unique, hasRowId, List.any_eq_true]

theorem hasRowId_append_left {rows rows' : List StoreRow} {i : String}
    (h : hasRowId rows i) : hasRowId (rows ++ rows') i := by
  obtain ⟨r, hr, he⟩ := h
  exact ⟨r, List.mem_append_left _ hr, he⟩

theorem loopExtends_refl (st : LoopState) : LoopExtends st st :=
  ⟨rfl, ⟨[], by simp⟩, ⟨[], by simp⟩, ⟨[], by simp⟩⟩

theorem loopExtends_trans {a b c : LoopState}
    (h1 : LoopExtends a b) (h2 : LoopExtends b c) : LoopExtends a c := by
  obtain ⟨t1, ⟨rs1, hr1⟩, ⟨ps1, hp1⟩, ⟨es1, he1, hc1⟩⟩ := h1
  obtain ⟨t2, ⟨rs2, hr2⟩, ⟨ps2, hp2⟩, ⟨es2, he2, hc2⟩⟩ := h2
  refine ⟨t2.trans t1, ⟨rs1 ++ rs2, ?_⟩, ⟨ps1 ++ ps2, ?_⟩, ⟨es1 ++ es2, ?_, ?_⟩⟩
  · rw [hr2, hr1, List.append_assoc]
  · rw [hp2, hp1, List.append_assoc]
  · rw [he2, he1, List.append_assoc]
  · intro x hx
    rcases List.mem_append.mp hx with h | h
    · exact hc1 x h
    · exact hc2 x h

theorem stepEntity_extends (fmt : Int → Option String) (w : World)
    (st : LoopState) (e : RawEntity) :
    LoopExtends st (loopFinal (stepEntity fmt w st e)) := by
  unfold stepEntity
  cases hpa : process_response_alert fmt e with
  | none => exact loopExtends_refl st
  | some pa =>
    by_cases himp : pa.l1_line_impacted
    · by_cases hcf : w.storeCheckFails
      · simp only [himp, hcf, if_true, if_pos]
        exact loopExtends_refl st
      · by_cases hknown : check_alert_id_is_unique st.store.rows pa
        · simp only [himp, hcf, hknown, if_true, if_false, if_pos, if_neg, loopFinal]
          exact ⟨rfl, ⟨[], by simp⟩, ⟨[], by simp⟩,
            ⟨[Event.checkId pa.alert_id], rfl, by
              intro x hx
              simp only [List.mem_singleton] at hx
              exact Or.inl ⟨pa.alert_id, hx⟩⟩⟩
        · by_cases hif : w.storeInsertFails
          · simp only [himp, hcf, hknown, hif, if_true, if_false, if_pos, if_neg, loopFinal]
            exact ⟨rfl, ⟨[], by simp⟩, ⟨[], by simp⟩,
              ⟨[Event.checkId pa.alert_id], rfl, by
                intro x hx
                simp only [List.mem_singleton] at hx
                exact Or.inl ⟨pa.alert_id, hx⟩⟩⟩
          · simp only [himp, hcf, hknown, hif, if_true, if_false, if_pos, if_neg, loopFinal]
            refine ⟨rfl, ⟨_, rfl⟩, ⟨[pa], rfl⟩,
              ⟨[Event.checkId pa.alert_id, Event.insertRow pa], rfl, ?_⟩⟩
            intro x hx
            simp only [List.mem_cons, List.mem_singleton, List.not_mem_nil, or_false] at hx
            rcases hx with h | h
            · exact Or.inl ⟨pa.alert_id, h⟩
            · exact Or.inr ⟨pa, h⟩
    · simp only [himp, if_neg, if_false, loopFinal]
      exact loopExtends_refl st

theorem runLoop_extends (fmt : Int → Option String) (w : World) :
    ∀ (es : List RawEntity) (st : LoopState),
      LoopExtends st (loopFinal (runLoop fmt w es st))
  | [], st => loopExtends_refl st
  | e :: rest, st => by
    unfold runLoop
    cases hs : stepEntity fmt w st e with
    | error a =>
      have := stepEntity_extends fmt w st e
      rw [hs] at this
      exact this
    | ok st' =>
      have h1 := stepEntity_extends fmt w st e
      rw [hs] at h1
      exact loopExtends_trans h1 (runLoop_extends fmt w rest st')

/-- Exhaustive description of the five ways one loop iteration can go:
unprocessable entity, skipped (not relevant), store exception on the
check, skipped (already known), store exception on the insert, or a fresh
insert. -/
theorem stepEntity_shape (fmt : Int → Option String) (w : World) (st : LoopState)
    (e : RawEntity) :
    (process_response_alert fmt e = none ∧
      stepEntity fmt w st e = .error (.malformed e st)) ∨
    ∃ pa, process_response_alert fmt e = some pa ∧
      ((pa.l1_line_impacted = false ∧ stepEntity fmt w st e = .ok st) ∨
       (pa.l1_line_impacted = true ∧ w.storeCheckFails = true ∧
         stepEntity fmt w st e = .error (.storeError st)) ∨
       (pa.l1_line_impacted = true ∧ w.storeCheckFails = false ∧
         hasRowId st.store.rows pa.alert_id ∧
         stepEntity fmt w st e =
           .ok { st with events := st.events ++ [Event.checkId pa.alert_id] }) ∨
       (pa.l1_line_impacted = true ∧ w.storeCheckFails = false ∧
         ¬ hasRowId st.store.rows pa.alert_id ∧ w.storeInsertFails = true ∧
         stepEntity fmt w st e =
           .error (.storeError
             { st with events := st.events ++ [Event.checkId pa.alert_id] })) ∨
       (pa.l1_line_impacted = true ∧ w.storeCheckFails = false ∧
         ¬ hasRowId st.store.rows pa.alert_id ∧ w.storeInsertFails = false ∧
         stepEntity fmt w st e =
           .ok { store := { st.store with
                            rows := insert_values_into_table w.now st.store.rows pa },
                 pending := st.pending ++ [pa],
                 events := st.events ++
                   [Event.checkId pa.alert_id, Event.insertRow pa] })) := by
  cases hpa : process_response_alert fmt e with
  | none => exact Or.inl ⟨rfl, by unfold stepEntity; rw [hpa]⟩
  | some pa =>
    refine Or.inr ⟨pa, rfl, ?_⟩
    cases himp : pa.l1_line_impacted with
    | false =>
      exact Or.inl ⟨rfl, by unfold stepEntity; rw [hpa]; simp [himp]⟩
    | true =>
      cases hcf : w.storeCheckFails with
      | true =>
        exact Or.inr (Or.inl ⟨rfl, rfl, by unfold stepEntity; rw [hpa]; simp [himp, hcf]⟩)
      | false =>
        cases hknown : check_alert_id_is_unique st.store.rows pa with
        | true =>
          refine Or.inr (Or.inr (Or.inl ⟨rfl, rfl, ?_, ?_⟩))
          · exact (check_eq_true_iff _ _).mp hknown
          · unfold stepEntity; rw [hpa]; simp [himp, hcf, hknown]
        | false =>
          have hnk : ¬ hasRowId st.store.rows pa.alert_id := by
            rw [← check_eq_true_iff]
            simp [hknown]
          cases hif : w.storeInsertFails with
          | true =>
            refine Or.inr (Or.inr (Or.inr (Or.inl ⟨rfl, rfl, hnk, rfl, ?_⟩)))
            unfold stepEntity; rw [hpa]; simp [himp, hcf, hknown, hif]
          | false =>
            refine Or.inr (Or.inr (Or.inr (Or.inr ⟨rfl, rfl, hnk, rfl, ?_⟩)))
            unfold stepEntity; rw [hpa]; simp [himp, hcf, hknown, hif]

theorem runLoop_append (fmt : Int → Option String) (w : World) :
    ∀ (es₁ es₂ : List RawEntity) (st : LoopState),
      runLoop fmt w (es₁ ++ es₂) st =
        match runLoop fmt w es₁ st with
        | .ok st' => runLoop fmt w es₂ st'
        | .error a => .error a
  | [], es₂, st => by simp [runLoop]
  | e :: rest, es₂, st => by
    show runLoop fmt w (e :: (rest ++ es₂)) st = _
    simp only [runLoop]
    cases hs : stepEntity fmt w st e with
    | error a => rfl
    | ok st' => exact runLoop_append fmt w rest es₂ st'

theorem hasRowId_iff_mem (rows : List StoreRow) (i : String) :
    hasRowId rows i ↔ i ∈ rowIds rows := by
  simp [hasRowId, rowIds, List.mem_map]

/-- Generic loop-invariant principle: a property preserved by one
iteration (including into abort states) holds of the state the loop
carries out. -/
theorem runLoop_preserves (fmt : Int → Option String) (w : World)
    (P : LoopState → Prop)
    (hstep : ∀ st e, P st → P (loopFinal (stepEntity fmt w st e))) :
    ∀ (es : List RawEntity) (st : LoopState), P st →
      P (loopFinal (runLoop fmt w es st))
  | [], _, h => h
  | e :: rest, st, h => by
    show P (loopFinal (runLoop fmt w (e :: rest) st))
    simp only [runLoop]
    cases hs : stepEntity fmt w st e with
    | error a =>
      have h2 := hstep st e h
      rw [hs] at h2
      exact h2
    | ok st' =>
      have h2 := hstep st e h
      rw [hs] at h2
      simp only [loopFinal] at h2
      exact runLoop_preserves fmt w P hstep rest st' h2

theorem stepEntity_insRowsInv (fmt : Int → Option String) (w : World)
    (st : LoopState) (e : RawEntity) (h : InsRowsInv st) :
    InsRowsInv (loopFinal (stepEntity fmt w st e)) := by
  rcases stepEntity_shape fmt w st e with ⟨_, hs⟩ | ⟨pa, hpa, hc⟩
  · rw [hs]; exact h
  · rcases hc with ⟨_, hs⟩ | ⟨_, _, hs⟩ | ⟨_, _, _, hs⟩ | ⟨_, _, _, _, hs⟩ |
      ⟨_, _, hnk, _, hs⟩ <;> rw [hs] <;> simp only [loopFinal]
    · exact h
    · exact h
    · intro q hq
      simp only [List.mem_append, List.mem_singleton] at hq
      rcases hq with hq | hq
      · exact h q hq
      · simp at hq
    · intro q hq
      simp only [List.mem_append, List.mem_singleton] at hq
      rcases hq with hq | hq
      · exact h q hq
      · simp at hq
    · intro q hq
      simp only [List.mem_append, List.mem_cons, List.mem_singleton,
        List.not_mem_nil, or_false] at hq
      rcases hq with hq | hq | hq
      · exact hasRowId_append_left (h q hq)
      · simp at hq
      · injection hq with hq2
        subst hq2
        exact ⟨_, List.mem_append_right _ (List.mem_singleton.mpr rfl), rfl⟩

theorem stepEntity_idBlockedInv (fmt : Int → Option String) (w : World)
    (st : LoopState) (e : RawEntity) (i : String) (h : IdBlockedInv i st) :
    IdBlockedInv i (loopFinal (stepEntity fmt w st e)) := by
  obtain ⟨hrow, hpend, hev⟩ := h
  rcases stepEntity_shape fmt w st e with ⟨_, hs⟩ | ⟨pa, hpa, hc⟩
  · rw [hs]; exact ⟨hrow, hpend, hev⟩
  · rcases hc with ⟨_, hs⟩ | ⟨_, _, hs⟩ | ⟨_, _, _, hs⟩ | ⟨_, _, _, _, hs⟩ |
      ⟨_, _, hnk, _, hs⟩ <;> rw [hs] <;> simp only [loopFinal]
    · exact ⟨hrow, hpend, hev⟩
    · exact ⟨hrow, hpend, hev⟩
    · refine ⟨hrow, hpend, ?_⟩
      intro q hq
      simp only [List.mem_append, List.mem_singleton] at hq
      rcases hq with hq | hq
      · exact hev q hq
      · simp at hq
    · refine ⟨hrow, hpend, ?_⟩
      intro q hq
      simp only [List.mem_append, List.mem_singleton] at hq
      rcases hq with hq | hq
      · exact hev q hq
      · simp at hq
    · have hne : pa.alert_id ≠ i := by
        intro hEq
        exact hnk (by rw [hEq]; exact hrow)
      refine ⟨hasRowId_append_left hrow, ?_, ?_⟩
      · intro q hq
        rcases List.mem_append.mp hq with hq | hq
        · exact hpend q hq
        · rw [List.mem_singleton] at hq
          subst hq
          exact hne
      · intro q hq
        simp only [List.mem_append, List.mem_cons, List.mem_singleton,
          List.not_mem_nil, or_false] at hq
        rcases hq with hq | hq | hq
        · exact hev q hq
        · simp at hq
        · injection hq with hq2
          subst hq2
          exact hne

theorem stepEntity_nodup (fmt : Int → Option String) (w : World)
    (st : LoopState) (e : RawEntity) (h : (rowIds st.store.rows).Nodup) :
    (rowIds (loopFinal (stepEntity fmt w st e)).store.rows).Nodup := by
  rcases stepEntity_shape fmt w st e with ⟨_, hs⟩ | ⟨pa, hpa, hc⟩
  · rw [hs]; exact h
  · rcases hc with ⟨_, hs⟩ | ⟨_, _, hs⟩ | ⟨_, _, _, hs⟩ | ⟨_, _, _, _, hs⟩ |
      ⟨_, _, hnk, _, hs⟩ <;> rw [hs] <;> simp only [loopFinal]
    · exact h
    · exact h
    · exact h
    · exact h
    · have hx : pa.alert_id ∉ rowIds st.store.rows := by
        intro hm
        exact hnk ((hasRowId_iff_mem _ _).mpr hm)
      have hEq : rowIds (insert_values_into_table w.now st.store.rows pa) =
          rowIds st.store.rows ++ [pa.alert_id] := by
        simp [rowIds, insert_values_into_table]
      rw [hEq]
      simp [List.nodup_append, h, hx]

/-- The loop adds only check and insert events, so a state containing no
email event still contains none afterwards. -/
theorem loopFinal_noMail (fmt : Int → Option String) (w : World)
    (es : List RawEntity) (st : LoopState)
    (h : ∀ ps, Event.sendEmail ps ∉ st.events) :
    ∀ ps, Event.sendEmail ps ∉ (loopFinal (runLoop fmt w es st)).events := by
  obtain ⟨_, _, _, evs, hev, hcl⟩ := runLoop_extends fmt w es st
  intro ps hm
  rw [hev] at hm
  rcases List.mem_append.mp hm with hm | hm
  · exact h ps hm
  · rcases hcl _ hm with ⟨i, hEq⟩ | ⟨pa, hEq⟩ <;> simp at hEq

/-- A store exception escapes the loop only when the corresponding failure
flag is set. -/
theorem runLoop_storeError_flag (fmt : Int → Option String) (w : World) :
    ∀ (es : List RawEntity) (st st' : LoopState),
      runLoop fmt w es st = .error (.storeError st') →
      w.storeCheckFails = true ∨ w.storeInsertFails = true
  | [], st, st', h => by simp [runLoop] at h
  | e :: rest, st, st', h => by
    simp only [runLoop] at h
    rcases stepEntity_shape fmt w st e with ⟨_, hs⟩ | ⟨pa, hpa, hc⟩
    · rw [hs] at h; simp at h
    · rcases hc with ⟨_, hs⟩ | ⟨_, hcf, _⟩ | ⟨_, _, _, hs⟩ | ⟨_, _, _, hif, _⟩ |
        ⟨_, _, _, _, hs⟩
      · rw [hs] at h
        exact runLoop_storeError_flag fmt w rest st st' h
      · exact Or.inl hcf
      · rw [hs] at h
        exact runLoop_storeError_flag fmt w rest _ st' h
      · exact Or.inr hif
      · rw [hs] at h
        exact runLoop_storeError_flag fmt w rest _ st' h

/-- With a healthy store the loop either completes or aborts on a
malformed entity; it never raises. -/
theorem runLoop_ok_of_flags (fmt : Int → Option String) (w : World)
    (h1 : w.storeCheckFails = false) (h2 : w.storeInsertFails = false) :
    ∀ (es : List RawEntity) (st : LoopState),
      (∃ st', runLoop fmt w es st = .ok st') ∨
      (∃ e st', runLoop fmt w es st = .error (.malformed e st'))
  | [], st => Or.inl ⟨st, rfl⟩
  | e :: rest, st => by
    simp only [runLoop]
    rcases stepEntity_shape fmt w st e with ⟨_, hs⟩ | ⟨pa, hpa, hc⟩
    · rw [hs]
      exact Or.inr ⟨e, st, rfl⟩
    · rcases hc with ⟨_, hs⟩ | ⟨_, hcf, _⟩ | ⟨_, _, _, hs⟩ | ⟨_, _, _, hif, _⟩ |
        ⟨_, _, _, _, hs⟩
      · rw [hs]
        exact runLoop_ok_of_flags fmt w h1 h2 rest st
      · rw [hcf] at h1; cases h1
      · rw [hs]
        exact runLoop_ok_of_flags fmt w h1 h2 rest _
      · rw [hif] at h2; cases h2
      · rw [hs]
        exact runLoop_ok_of_flags fmt w h1 h2 rest _

theorem runLoop_ok_extends {fmt : Int → Option String} {w : World}
    {es : List RawEntity} {st stf : LoopState}
    (h : runLoop fmt w es st = .ok stf) : LoopExtends st stf := by
  have h2 := runLoop_extends fmt w es st
  rw [h] at h2
  exact h2

theorem LoopExtends.rowMem {st st' : LoopState} {i : String}
    (hx : LoopExtends st st') (h : hasRowId st.store.rows i) :
    hasRowId st'.store.rows i := by
  obtain ⟨_, ⟨rs, hr⟩, _, _⟩ := hx
  rw [hr]
  exact hasRowId_append_left h

/-- After a completed loop, every feed entity was processable, and every
relevant processed alert has its id in the final store (either it was
already known, or this very loop inserted it); moreover meeting a relevant
alert proves the check flag was clear. -/
theorem runLoop_ok_mem (fmt : Int → Option String) (w : World) :
    ∀ (es : List RawEntity) (st stf : LoopState),
      runLoop fmt w es st = .ok stf →
      ∀ e ∈ es, ∃ pa, process_response_alert fmt e = some pa ∧
        (pa.l1_line_impacted = true →
          w.storeCheckFails = false ∧ hasRowId stf.store.rows pa.alert_id)
  | [], _, _, _, e, he => absurd he (List.not_mem_nil e)
  | e0 :: rest, st, stf, h, e, he => by
    simp only [runLoop] at h
    rcases stepEntity_shape fmt w st e0 with ⟨_, hs⟩ | ⟨pa, hpa, hc⟩
    · rw [hs] at h; simp at h
    · rcases hc with ⟨hfalse, hs⟩ | ⟨himp, hcf, hs⟩ | ⟨himp, hcf, hrow, hs⟩ |
        ⟨himp, hcf, hnk, hif, hs⟩ | ⟨himp, hcf, hnk, hif, hs⟩ <;> rw [hs] at h
      · rcases List.mem_cons.mp he with rfl | herest
        · exact ⟨pa, hpa, fun hx => by rw [hfalse] at hx; cases hx⟩
        · exact runLoop_ok_mem fmt w rest st stf h e herest
      · simp at h
      · rcases List.mem_cons.mp he with rfl | herest
        · exact ⟨pa, hpa, fun _ => ⟨hcf, (runLoop_ok_extends h).rowMem hrow⟩⟩
        · exact runLoop_ok_mem fmt w rest _ stf h e herest
      · simp at h
      · rcases List.mem_cons.mp he with rfl | herest
        · refine ⟨pa, hpa, fun _ => ⟨hcf, (runLoop_ok_extends h).rowMem ?_⟩⟩
          exact ⟨_, List.mem_append_right _ (List.mem_singleton.mpr rfl), rfl⟩
        · exact runLoop_ok_mem fmt w rest _ stf h e herest

/-- If every entity of the feed is processable and every relevant one is
already stored, the loop completes touching neither the store nor the
pending set, adding only existence-check events. -/
theorem runLoop_all_known (fmt : Int → Option String) (w : World) :
    ∀ (es : List RawEntity) (st : LoopState),
      (∀ e ∈ es, ∃ pa, process_response_alert fmt e = some pa ∧
        (pa.l1_line_impacted = true →
          w.storeCheckFails = false ∧ hasRowId st.store.rows pa.alert_id)) →
      ∃ evs, runLoop fmt w es st =
          .ok { store := st.store, pending := st.pending,
                events := st.events ++ evs } ∧
        ∀ x ∈ evs, ∃ i, x = Event.checkId i
  | [], st, _ => ⟨[], by simp [runLoop], by simp⟩
  | e0 :: rest, st, h => by
    have hrest0 : ∀ e ∈ rest, ∃ pa, process_response_alert fmt e = some pa ∧
        (pa.l1_line_impacted = true →
          w.storeCheckFails = false ∧ hasRowId st.store.rows pa.alert_id) :=
      fun e he => h e (List.mem_cons_of_mem e0 he)
    obtain ⟨pa0, hpa0, himpl0⟩ := h e0 (List.mem_cons_self e0 rest)
    rcases stepEntity_shape fmt w st e0 with ⟨hn, hs⟩ | ⟨pa, hpa, hc⟩
    · rw [hpa0] at hn; cases hn
    · rw [hpa0] at hpa
      replace hpa := Option.some.inj hpa
      rw [hpa] at himpl0
      rcases hc with ⟨hfalse, hs⟩ | ⟨himp, hcf, hs⟩ | ⟨himp, hcf, hrow, hs⟩ |
        ⟨himp, hcf, hnk, hif, hs⟩ | ⟨himp, hcf, hnk, hif, hs⟩
      · obtain ⟨evs, hrun, hcl⟩ := runLoop_all_known fmt w rest st hrest0
        refine ⟨evs, ?_, hcl⟩
        simp only [runLoop, hs]
        exact hrun
      · rcases himpl0 himp with ⟨hcf2, _⟩
        rw [hcf] at hcf2; cases hcf2
      · obtain ⟨evs, hrun, hcl⟩ := runLoop_all_known fmt w rest
          { st with events := st.events ++ [Event.checkId pa.alert_id] } hrest0
        refine ⟨Event.checkId pa.alert_id :: evs, ?_, ?_⟩
        · simp only [runLoop, hs, hrun]
          simp [List.append_assoc]
        · intro x hx
          rcases List.mem_cons.mp hx with hx | hx
          · exact ⟨pa.alert_id, hx⟩
          · exact hcl x hx
      · rcases himpl0 himp with ⟨_, hrow⟩
        exact absurd hrow hnk
      · rcases himpl0 himp with ⟨_, hrow⟩
        exact absurd hrow hnk

/-! ### Facts about the loop entry state and the anatomy of `mainRun` -/

theorem initLoopState_tableExists (s0 : StoreState) :
    (initLoopState s0).store.tableExists = true := by
  unfold initLoopState provisionStore
  split
  · assumption
  · rfl

theorem initLoopState_noMail (s0 : StoreState) :
    ∀ ps, Event.sendEmail ps ∉ (initLoopState s0).events := by
  intro ps hm
  unfold initLoopState provisionEvents at hm
  split at hm <;> simp at hm

theorem initLoopState_noInsert (s0 : StoreState) :
    ∀ pa, Event.insertRow pa ∉ (initLoopState s0).events := by
  intro pa hm
  unfold initLoopState provisionEvents at hm
  split at hm <;> simp at hm

theorem provisionStore_of_true {s0 : StoreState} (h : s0.tableExists = true) :
    provisionStore s0 = s0 := by
  unfold provisionStore
  simp [h]

/-- In the non-fetch-failure case, the run result is the loop result: same
store, and the same events save possibly one final batched email. -/
theorem mainRun_anatomy (fmt : Int → Option String) (w : World) (s0 : StoreState)
    (feed : Feed) (hresp : w.response = some feed) :
    (mainRun fmt w s0).store =
        (loopFinal (runLoop fmt w feed.entity (initLoopState s0))).store ∧
    ((mainRun fmt w s0).events =
        (loopFinal (runLoop fmt w feed.entity (initLoopState s0))).events ∨
      (mainRun fmt w s0).events =
        (loopFinal (runLoop fmt w feed.entity (initLoopState s0))).events ++
          [Event.sendEmail
            (loopFinal (runLoop fmt w feed.entity (initLoopState s0))).pending]) := by
  cases hL : runLoop fmt w feed.entity (initLoopState s0) with
  | error a =>
    cases a with
    | malformed e stx => simp [mainRun, hresp, hL, loopFinal]
    | storeError stx => simp [mainRun, hresp, hL, loopFinal]
  | ok stx =>
    simp only [mainRun, hresp, hL, loopFinal]
    by_cases hp : stx.pending.length > 0
    · by_cases hm : w.emailOk
      · simp [hp, hm]
      · simp [hp, hm]
    · simp [hp]

theorem mainRun_tableExists (fmt : Int → Option String) (w : World) (s0 : StoreState)
    (feed : Feed) (hresp : w.response = some feed) :
    (mainRun fmt w s0).store.tableExists = true := by
  obtain ⟨hstore, _⟩ := mainRun_anatomy fmt w s0 feed hresp
  rw [hstore]
  have := (runLoop_extends fmt w feed.entity (initLoopState s0)).1
  rw [this, initLoopState_tableExists]

/-- An insert event of a run leaves a row with its id in the final
store (and the table exists at the end of the run). -/
theorem mainRun_insertRow_mem (fmt : Int → Option String) (w : World)
    (s0 : StoreState) (pa : ProcessedAlert)
    (h : Event.insertRow pa ∈ (mainRun fmt w s0).events) :
    hasRowId (mainRun fmt w s0).store.rows pa.alert_id ∧
      (mainRun fmt w s0).store.tableExists = true := by
  cases hresp : w.response with
  | none => simp [mainRun, hresp] at h
  | some feed =>
    have hInv := runLoop_preserves fmt w InsRowsInv
      (fun st e => stepEntity_insRowsInv fmt w st e) feed.entity (initLoopState s0)
      (fun q hq => absurd hq (initLoopState_noInsert s0 q))
    obtain ⟨hstore, hev⟩ := mainRun_anatomy fmt w s0 feed hresp
    refine ⟨?_, mainRun_tableExists fmt w s0 feed hresp⟩
    rcases hev with hev | hev <;> rw [hev] at h <;> rw [hstore]
    · exact hInv pa h
    · rcases List.mem_append.mp h with h | h
      · exact hInv pa h
      · simp at h

/-- A run starting from a store that already has a row for id `i` (table
present) never inserts that id again, never emails an alert with that id,
and leaves the id in the store with the table still present. -/
theorem mainRun_blocked (fmt : Int → Option String) (w : World) (s : StoreState)
    (i : String) (hT : s.tableExists = true) (hI : hasRowId s.rows i) :
    (∀ ps, Event.sendEmail ps ∈ (mainRun fmt w s).events →
      ∀ q ∈ ps, q.alert_id ≠ i) ∧
    (∀ q, Event.insertRow q ∈ (mainRun fmt w s).events → q.alert_id ≠ i) ∧
    (mainRun fmt w s).store.tableExists = true ∧
    hasRowId (mainRun fmt w s).store.rows i := by
  cases hresp : w.response with
  | none =>
    refine ⟨?_, ?_, ?_, ?_⟩ <;> simp [mainRun, hresp]
    · exact hT
    · exact hI
  | some feed =>
    have hInit : IdBlockedInv i (initLoopState s) := by
      refine ⟨?_, by simp [initLoopState], ?_⟩
      · show hasRowId (provisionStore s).rows i
        rw [provisionStore_of_true hT]
        exact hI
      · intro q hq
        exact absurd hq (initLoopState_noInsert s q)
    have hInv := runLoop_preserves fmt w (IdBlockedInv i)
      (fun st e => stepEntity_idBlockedInv fmt w st e i) feed.entity
      (initLoopState s) hInit
    have hNoMail := loopFinal_noMail fmt w feed.entity (initLoopState s)
      (initLoopState_noMail s)
    obtain ⟨hrow, hpend, hins⟩ := hInv
    obtain ⟨hstore, hev⟩ := mainRun_anatomy fmt w s feed hresp
    refine ⟨?_, ?_, mainRun_tableExists fmt w s feed hresp, by rw [hstore]; exact hrow⟩
    · intro ps hm
      rcases hev with hev2 | hev2 <;> rw [hev2] at hm
      · exact absurd hm (hNoMail ps)
      · rcases List.mem_append.mp hm with hm | hm
        · exact absurd hm (hNoMail ps)
        · rw [List.mem_singleton] at hm
          injection hm with hm2
          rw [hm2]
          exact hpend
    · intro q hq
      rcases hev with hev2 | hev2 <;> rw [hev2] at hq
      · exact hins q hq
      · rcases List.mem_append.mp hq with hq | hq
        · exact hins q hq
        · simp at hq

/-- With a healthy store, the loop completes whenever every entity is
processable. -/
theorem runLoop_ok_of_processable (fmt : Int → Option String) (w : World)
    (h1 : w.storeCheckFails = false) (h2 : w.storeInsertFails = false) :
    ∀ (es : List RawEntity) (st : LoopState),
      (∀ e ∈ es, process_response_alert fmt e ≠ none) →
      ∃ st', runLoop fmt w es st = .ok st'
  | [], st, _ => ⟨st, rfl⟩
  | e0 :: rest, st, h => by
    have hrest : ∀ e ∈ rest, process_response_alert fmt e ≠ none :=
      fun e he => h e (List.mem_cons_of_mem e0 he)
    rcases stepEntity_shape fmt w st e0 with ⟨hn, _⟩ | ⟨pa, hpa, hc⟩
    · exact absurd hn (h e0 (List.mem_cons_self e0 rest))
    · rcases hc with ⟨_, hs⟩ | ⟨_, hcf, _⟩ | ⟨_, _, _, hs⟩ | ⟨_, _, _, hif, _⟩ |
        ⟨_, _, _, _, hs⟩
      · obtain ⟨st', hrun⟩ := runLoop_ok_of_processable fmt w h1 h2 rest st hrest
        exact ⟨st', by simp only [runLoop, hs]; exact hrun⟩
      · rw [hcf] at h1; cases h1
      · obtain ⟨st', hrun⟩ := runLoop_ok_of_processable fmt w h1 h2 rest _ hrest
        exact ⟨st', by simp only [runLoop, hs]; exact hrun⟩
      · rw [hif] at h2; cases h2
      · obtain ⟨st', hrun⟩ := runLoop_ok_of_processable fmt w h1 h2 rest _ hrest
        exact ⟨st', by simp only [runLoop, hs]; exact hrun⟩

/-- The loop reads the environment only through the store flags and the
clock, never through the fetched payload. -/
theorem runLoop_response_irrel (fmt : Int → Option String) (w : World)
    (r : Option Feed) :
    ∀ (es : List RawEntity) (st : LoopState),
      runLoop fmt { w with response := r } es st = runLoop fmt w es st
  | [], _ => rfl
  | e :: rest, st => by
    simp only [runLoop]
    have hstep : stepEntity fmt { w with response := r } st e =
        stepEntity fmt w st e := rfl
    rw [hstep]
    cases stepEntity fmt w st e with
    | error a => rfl
    | ok st' => exact runLoop_response_irrel fmt w r rest st'

/-! ### Claims -/

/-- Claim C1: uniqueness invariant.  For every sequence of sequential
single-writer runs starting from a store whose rows carry pairwise
distinct alert ids, the stored alert ids remain pairwise distinct — the
orchestrator inserts only after the exact-match existence query on
`alert_id` reports the id absent, so each distinct id is inserted at most
once over the lifetime of the store. -/
theorem uniqueness_over_runs (fmt : Int → Option String) (ws : List World)
    (s0 : StoreState) (h : (rowIds s0.rows).Nodup) :
    (rowIds (runSeq fmt ws s0).rows).Nodup := by
  induction ws generalizing s0 with
  | nil => exact h
  | cons w rest ih =>
    show (rowIds (runSeq fmt rest (mainRun fmt w s0).store).rows).Nodup
    apply ih
    cases hresp : w.response with
    | none => simpa [mainRun, hresp] using h
    | some feed =>
      obtain ⟨hstore, _⟩ := mainRun_anatomy fmt w s0 feed hresp
      rw [hstore]
      have hInit : (rowIds (initLoopState s0).store.rows).Nodup := by
        show (rowIds (provisionStore s0).rows).Nodup
        unfold provisionStore
        split
        · exact h
        · simp [rowIds]
      exact runLoop_preserves fmt w (fun st => (rowIds st.store.rows).Nodup)
        (fun st e => stepEntity_nodup fmt w st e) feed.entity
        (initLoopState s0) hInit

/-- Witness for C1 at a concrete pre-populated store and one run that
inserts a fresh alert. -/
theorem uniqueness_over_runs_witness :
    (rowIds exStoreB.rows).Nodup ∧
      (rowIds (runSeq exFmt [exWorld] exStoreB).rows).Nodup :=
  ⟨by decide, uniqueness_over_runs exFmt [exWorld] exStoreB (by decide)⟩

/-- Claim C8: when the feed fetch yields no payload, the run returns
exactly `("Error: The API response is invalid", 500)` with no store
operation and no mail call: the event trace is empty and the store is
untouched. -/
theorem fetch_failure_result (fmt : Int → Option String) (w : World)
    (s0 : StoreState) (h : w.response = none) :
    (mainRun fmt w s0).outcome = .returned "Error: The API response is invalid" 500 ∧
    (mainRun fmt w s0).events = [] ∧
    (mainRun fmt w s0).store = s0 := by
  refine ⟨?_, ?_, ?_⟩ <;> simp [mainRun, h]

/-- Counterexample to C6 as stated: with the store raising on the
existence check, the run terminates by propagating the exception, not by
returning any two-element `(message, status)` result. -/
theorem run_result_storeerror_counterexample :
    (mainRun exFmt cexWorldCheckFails exStore).outcome = RunOutcome.storeException ∧
      ¬ ∃ p : String × Nat,
        (mainRun exFmt cexWorldCheckFails exStore).outcome =
          RunOutcome.returned p.1 p.2 := by
  constructor
  · decide
  · rintro ⟨p, hp⟩
    have h1 : (mainRun exFmt cexWorldCheckFails exStore).outcome =
        RunOutcome.storeException := by decide
    rw [h1] at hp
    exact RunOutcome.noConfusion hp

/-- Claim C6 (amended): a run in which no store exception is raised
returns exactly one two-element result, with status 200 for the
successful outcome and 500 for every locally-handled abort; a store
failure during the existence check or the insert is not caught locally —
it propagates out of `main` as an exception, so such a run terminates
without a returned result pair, and an escaping exception can only come
from those two store calls. -/
theorem run_result_exactly_one (fmt : Int → Option String) (w : World)
    (s0 : StoreState) :
    (∀ msg code, (mainRun fmt w s0).outcome = .returned msg code →
      code = 200 ∨ code = 500) ∧
    (w.storeCheckFails = false → w.storeInsertFails = false →
      ∃ msg code, (mainRun fmt w s0).outcome = .returned msg code) ∧
    ((mainRun fmt w s0).outcome = .storeException →
      w.storeCheckFails = true ∨ w.storeInsertFails = true) := by
  refine ⟨?_, ?_, ?_⟩
  · intro msg code h
    cases hresp : w.response with
    | none =>
      simp only [mainRun, hresp] at h
      simp at h
      exact Or.inr h.2.symm
    | some feed =>
      simp only [mainRun, hresp] at h
      cases hL : runLoop fmt w feed.entity (initLoopState s0) with
      | error a =>
        cases a with
        | malformed e stx =>
          rw [hL] at h
          simp at h
          exact Or.inr h.2.symm
        | storeError stx =>
          rw [hL] at h
          simp at h
      | ok stx =>
        rw [hL] at h
        by_cases hp : stx.pending.length > 0
        · by_cases hm : w.emailOk
          · simp [hp, hm] at h
            exact Or.inl h.2.symm
          · simp [hp, hm] at h
            exact Or.inr h.2.symm
        · simp [hp] at h
          exact Or.inl h.2.symm
  · intro h1 h2
    cases hresp : w.response with
    | none =>
      exact ⟨"Error: The API response is invalid", 500, by simp [mainRun, hresp]⟩
    | some feed =>
      rcases runLoop_ok_of_flags fmt w h1 h2 feed.entity (initLoopState s0) with
        ⟨st', hL⟩ | ⟨e, st', hL⟩
      · by_cases hp : st'.pending.length > 0
        · by_cases hm : w.emailOk
          · exact ⟨"Complete.", 200, by simp [mainRun, hresp, hL, hp, hm]⟩
          · exact ⟨"Error: Unable to send email.", 500,
              by simp [mainRun, hresp, hL, hp, hm]⟩
        · exact ⟨"Complete.", 200, by simp [mainRun, hresp, hL, hp]⟩
      · exact ⟨"Error: Unable to process result " ++ entityStr e, 500,
          by simp [mainRun, hresp, hL]⟩
  · intro h
    cases hresp : w.response with
    | none =>
      simp only [mainRun, hresp] at h
      simp at h
    | some feed =>
      simp only [mainRun, hresp] at h
      cases hL : runLoop fmt w feed.entity (initLoopState s0) with
      | error a =>
        cases a with
        | malformed e stx =>
          rw [hL] at h
          simp at h
        | storeError stx =>
          exact runLoop_storeError_flag fmt w feed.entity (initLoopState s0) stx hL
      | ok stx =>
        rw [hL] at h
        by_cases hp : stx.pending.length > 0
        · by_cases hm : w.emailOk <;> simp [hp, hm] at h
        · simp [hp] at h

/-- Witness for the amended C6 at a healthy concrete environment. -/
theorem run_result_exactly_one_witness :
    exWorld.storeCheckFails = false ∧ exWorld.storeInsertFails = false ∧
      ∃ msg code, (mainRun exFmt exWorld exStore).outcome =
        RunOutcome.returned msg code :=
  ⟨rfl, rfl, (run_result_exactly_one exFmt exWorld exStore).2.1 rfl rfl⟩

/-- Claim C5: fail-fast on malformed records.  If the feed order is
`pre ++ bad :: post` with every entity of `pre` processable and `bad`
unprocessable, the run aborts with the malformed-record message and
status 500, equals the run on the feed truncated right after `bad`
(so nothing after `bad` is canonicalized, inserted, or otherwise acted
on), and sends no notification email. -/
theorem fail_fast_malformed (fmt : Int → Option String) (w : World) (s0 : StoreState)
    (feed : Feed) (pre post : List RawEntity) (bad : RawEntity)
    (hresp : w.response = some feed)
    (hfeed : feed.entity = pre ++ bad :: post)
    (hpre : ∀ e ∈ pre, process_response_alert fmt e ≠ none)
    (hbad : process_response_alert fmt bad = none)
    (hcf : w.storeCheckFails = false) (hif : w.storeInsertFails = false) :
    (mainRun fmt w s0).outcome =
        .returned ("Error: Unable to process result " ++ entityStr bad) 500 ∧
    mainRun fmt w s0 =
      mainRun fmt { w with response := some { entity := pre ++ [bad] } } s0 ∧
    ∀ ps, Event.sendEmail ps ∉ (mainRun fmt w s0).events := by
  obtain ⟨st1, hpreRun⟩ :=
    runLoop_ok_of_processable fmt w hcf hif pre (initLoopState s0) hpre
  have hstepBad : stepEntity fmt w st1 bad = .error (.malformed bad st1) := by
    unfold stepEntity
    rw [hbad]
  have hfull : runLoop fmt w feed.entity (initLoopState s0) =
      .error (.malformed bad st1) := by
    rw [hfeed, runLoop_append fmt w pre (bad :: post) (initLoopState s0), hpreRun]
    simp only [runLoop, hstepBad]
  have htrunc : runLoop fmt w (pre ++ [bad]) (initLoopState s0) =
      .error (.malformed bad st1) := by
    rw [runLoop_append fmt w pre [bad] (initLoopState s0), hpreRun]
    simp only [runLoop, hstepBad]
  have hnm : ∀ ps, Event.sendEmail ps ∉ st1.events := by
    have h2 := loopFinal_noMail fmt w pre (initLoopState s0) (initLoopState_noMail s0)
    rw [hpreRun] at h2
    exact h2
  refine ⟨?_, ?_, ?_⟩
  · simp [mainRun, hresp, hfull]
  · have hrhs : mainRun fmt { w with response := some { entity := pre ++ [bad] } } s0 =
        { outcome :=
            .returned ("Error: Unable to process result " ++ entityStr bad) 500,
          store := st1.store, events := st1.events } := by
      simp only [mainRun]
      rw [runLoop_response_irrel fmt w (some { entity := pre ++ [bad] })
        (pre ++ [bad]) (initLoopState s0), htrunc]
    rw [hrhs]
    simp [mainRun, hresp, hfull]
  · intro ps
    simp only [mainRun, hresp, hfull]
    exact hnm ps

/-- Witness for C5: a feed holding a malformed entity followed by a good
one aborts on the malformed entity, identically to the feed with the tail
dropped. -/
theorem fail_fast_malformed_witness :
    (mainRun exFmt exWorldBadThenGood exStore).outcome =
        .returned ("Error: Unable to process result " ++ entityStr badEntity) 500 ∧
      mainRun exFmt exWorldBadThenGood exStore =
        mainRun exFmt
          { exWorldBadThenGood with response := some { entity := [badEntity] } }
          exStore ∧
      ∀ ps, Event.sendEmail ps ∉ (mainRun exFmt exWorldBadThenGood exStore).events :=
  fail_fast_malformed exFmt exWorldBadThenGood exStore
    { entity := [badEntity, goodEntity] } [] [goodEntity] badEntity rfl rfl
    (by simp) (by decide) rfl rfl

/-- Claim C7: a notification failure after the loop has completed yields
the error result `("Error: Unable to send email.", 500)` while leaving
the store exactly as the loop left it — and in particular every alert
inserted during the run still has its row in the final store (no
rollback). -/
theorem persistence_survives_mail_failure (fmt : Int → Option String) (w : World)
    (s0 : StoreState) (feed : Feed) (st : LoopState)
    (hresp : w.response = some feed)
    (hloop : runLoop fmt w feed.entity (initLoopState s0) = .ok st)
    (hpend : st.pending ≠ [])
    (hmail : w.emailOk = false) :
    (mainRun fmt w s0).outcome = .returned "Error: Unable to send email." 500 ∧
    (mainRun fmt w s0).store = st.store ∧
    ∀ pa, Event.insertRow pa ∈ (mainRun fmt w s0).events →
      hasRowId (mainRun fmt w s0).store.rows pa.alert_id := by
  have hp : st.pending.length > 0 := List.length_pos.mpr hpend
  refine ⟨?_, ?_, ?_⟩
  · simp [mainRun, hresp, hloop, hp, hmail]
  · simp [mainRun, hresp, hloop, hp, hmail]
  · intro pa hpa
    exact (mainRun_insertRow_mem fmt w s0 pa hpa).1

/-- Witness for C7: the concrete failed-mail run keeps the row inserted
for the fresh alert. -/
theorem persistence_survives_mail_failure_witness :
    (mainRun exFmt exWorldMailFails exStore).outcome =
        .returned "Error: Unable to send email." 500 ∧
      (mainRun exFmt exWorldMailFails exStore).store = stGood.store ∧
      ∀ pa, Event.insertRow pa ∈ (mainRun exFmt exWorldMailFails exStore).events →
        hasRowId (mainRun exFmt exWorldMailFails exStore).store.rows pa.alert_id :=
  persistence_survives_mail_failure exFmt exWorldMailFails exStore
    { entity := [goodEntity] } stGood rfl rfl (by decide) rfl

/-- Claim C9: notification batching.  When the loop completes with a
non-empty pending sequence, the run performs exactly one mail call whose
alerts are the pending alerts in encounter order, the rendered body is
the alerts' field blocks joined by a literal `"===\n"` delimiter line,
and each block lists every field as a `field: value` line; when the
pending sequence is empty, no mail call occurs and the run still returns
the success result. -/
theorem notification_batching (fmt : Int → Option String) (w : World)
    (s0 : StoreState) (feed : Feed) (st : LoopState)
    (hresp : w.response = some feed)
    (hloop : runLoop fmt w feed.entity (initLoopState s0) = .ok st) :
    (st.pending ≠ [] →
      (mainRun fmt w s0).events = st.events ++ [Event.sendEmail st.pending] ∧
      send_email_rendered st.pending =
        String.intercalate "===\n" (st.pending.map format_email_body) ∧
      ∀ a, format_email_body a =
        "alert_id: " ++ a.alert_id ++ "\n" ++
        "url: " ++ a.url ++ "\n" ++
        "title: " ++ a.title ++ "\n" ++
        "description_html: " ++ a.description_html ++ "\n" ++
        "formatted_start_date: " ++ a.formatted_start_date ++ "\n" ++
        "formatted_end_date: " ++ a.formatted_end_date ++ "\n" ++
        "l1_line_impacted: " ++ pyBoolStr a.l1_line_impacted ++ "\n") ∧
    (st.pending = [] →
      (∀ ps, Event.sendEmail ps ∉ (mainRun fmt w s0).events) ∧
      (mainRun fmt w s0).outcome = .returned "Complete." 200) := by
  constructor
  · intro hne
    have hp : st.pending.length > 0 := List.length_pos.mpr hne
    refine ⟨?_, rfl, fun a => rfl⟩
    by_cases hm : w.emailOk <;> simp [mainRun, hresp, hloop, hp, hm]
  · intro hemp
    have hp : ¬ st.pending.length > 0 := by simp [hemp]
    have h2 := loopFinal_noMail fmt w feed.entity (initLoopState s0)
      (initLoopState_noMail s0)
    rw [hloop] at h2
    constructor
    · intro ps
      simp only [mainRun, hresp, hloop]
      simp only [hp, if_neg]
      exact h2 ps
    · simp [mainRun, hresp, hloop, hp]

/-- Witness for C9 at the concrete run that inserts and mails one fresh
alert. -/
theorem notification_batching_witness :
    (mainRun exFmt exWorld exStore).events =
        stGood.events ++ [Event.sendEmail stGood.pending] ∧
      send_email_rendered stGood.pending =
        String.intercalate "===\n" (stGood.pending.map format_email_body) ∧
      ∀ a, format_email_body a =
        "alert_id: " ++ a.alert_id ++ "\n" ++
        "url: " ++ a.url ++ "\n" ++
        "title: " ++ a.title ++ "\n" ++
        "description_html: " ++ a.description_html ++ "\n" ++
        "formatted_start_date: " ++ a.formatted_start_date ++ "\n" ++
        "formatted_end_date: " ++ a.formatted_end_date ++ "\n" ++
        "l1_line_impacted: " ++ pyBoolStr a.l1_line_impacted ++ "\n" :=
  (notification_batching exFmt exWorld exStore { entity := [goodEntity] } stGood
    rfl rfl).1 (by decide)

/-- A sequence of runs starting from a store that already holds id `i`
never inserts that id and never mails an alert carrying it. -/
theorem laterRuns_blocked (fmt : Int → Option String) (i : String) :
    ∀ (ws : List World) (s : StoreState),
      s.tableExists = true → hasRowId s.rows i →
      ∀ r ∈ laterRuns fmt ws s,
        (∀ ps, Event.sendEmail ps ∈ r.events → ∀ q ∈ ps, q.alert_id ≠ i) ∧
        (∀ q, Event.insertRow q ∈ r.events → q.alert_id ≠ i)
  | [], _, _, _, r, hr => absurd hr (List.not_mem_nil r)
  | w :: rest, s, hT, hI, r, hr => by
    obtain ⟨hmail, hins, hT2, hI2⟩ := mainRun_blocked fmt w s i hT hI
    simp only [laterRuns] at hr
    rcases List.mem_cons.mp hr with rfl | hr2
    · exact ⟨hmail, hins⟩
    · exact laterRuns_blocked fmt i rest (mainRun fmt w s).store hT2 hI2 r hr2

/-- Claim C10 (implicit): an alert persisted by a run that aborts with a
500 result before its notification went out is never notified later — in
every subsequent run its id is reported as known, so it is never appended
to a pending set (hence never part of a mail call) and never re-inserted. -/
theorem lost_notification (fmt : Int → Option String) (w1 : World) (s0 : StoreState)
    (pa : ProcessedAlert) (ws : List World)
    (hins : Event.insertRow pa ∈ (mainRun fmt w1 s0).events)
    (_habort : ∃ m, (mainRun fmt w1 s0).outcome = .returned m 500) :
    ∀ r ∈ laterRuns fmt ws (mainRun fmt w1 s0).store,
      (∀ ps, Event.sendEmail ps ∈ r.events → ∀ q ∈ ps, q.alert_id ≠ pa.alert_id) ∧
      (∀ q, Event.insertRow q ∈ r.events → q.alert_id ≠ pa.alert_id) := by
  obtain ⟨hrow, hT⟩ := mainRun_insertRow_mem fmt w1 s0 pa hins
  exact laterRuns_blocked fmt pa.alert_id ws (mainRun fmt w1 s0).store hT hrow

/-- When every entry carries both keys, the `informedEntity` loop computes
exactly the disjunction of the per-entry route/direction tests, in the
order the source writes them (`== 1` first, `== 0` second). -/
theorem computeImpacted_eq_any (lines : List InformedEntity)
    (h : ∀ l ∈ lines, l.routeId ≠ none ∧ l.directionId ≠ none) :
    computeImpacted lines = some (lines.any (fun l =>
      decide (l.routeId = some "IWLR-191") &&
      (decide (l.directionId = some 1) || decide (l.directionId = some 0)))) := by
  induction lines with
  | nil => rfl
  | cons l rest ih =>
    obtain ⟨hr, hd⟩ := h l (List.mem_cons_self l rest)
    have hrest := ih (fun x hx => h x (List.mem_cons_of_mem l hx))
    obtain ⟨r, hr2⟩ := Option.ne_none_iff_exists.mp hr
    obtain ⟨d, hd2⟩ := Option.ne_none_iff_exists.mp hd
    by_cases hroute : r = "IWLR-191"
    · have hl : lineImpacted l = some (decide (d = 1) || decide (d = 0)) := by
        simp [lineImpacted, ← hr2, ← hd2, hroute]
      simp [computeImpacted, hl, hrest, ← hr2, ← hd2, hroute]
    · have hl : lineImpacted l = some false := by
        simp [lineImpacted, ← hr2, hroute]
      simp [computeImpacted, hl, hrest, ← hr2, hroute]

/-- Claim C3: relevance filter correctness.  For a finite sequence of
informed entities each carrying a route identifier and a direction
identifier, the computed `l1_line_impacted` flag is produced without
error and is true iff some entry has `routeId = "IWLR-191"` and
`directionId` equal to 0 or 1; the empty sequence yields `false` rather
than an error. -/
theorem relevance_filter_correct :
    (∀ lines : List InformedEntity,
      (∀ l ∈ lines, l.routeId ≠ none ∧ l.directionId ≠ none) →
      ∃ b : Bool, computeImpacted lines = some b ∧
        (b = true ↔ ∃ l ∈ lines, l.routeId = some "IWLR-191" ∧
          (l.directionId = some 0 ∨ l.directionId = some 1))) ∧
    computeImpacted [] = some false := by
  refine ⟨?_, rfl⟩
  intro lines h
  refine ⟨_, computeImpacted_eq_any lines h, ?_⟩
  simp only [List.any_eq_true, Bool.and_eq_true, Bool.or_eq_true, decide_eq_true_eq]
  constructor
  · rintro ⟨l, hl, h1, h2⟩
    exact ⟨l, hl, h1, h2.symm⟩
  · rintro ⟨l, hl, h1, h2⟩
    exact ⟨l, hl, h1, h2.symm⟩

/-- Witness for C3 at the singleton matching sequence. -/
theorem relevance_filter_correct_witness :
    (∀ l ∈ [ieGood], l.routeId ≠ none ∧ l.directionId ≠ none) ∧
      ∃ b : Bool, computeImpacted [ieGood] = some b ∧
        (b = true ↔ ∃ l ∈ [ieGood], l.routeId = some "IWLR-191" ∧
          (l.directionId = some 0 ∨ l.directionId = some 1)) :=
  ⟨by decide, relevance_filter_correct.1 [ieGood] (by decide)⟩

/-- Counterexample to C4 as stated: an entity whose four required fields
`id`, `url`, `title`, `description` are all structurally present still
fails canonicalization, because its `informedEntity` key is absent (the
relevance data is a further requirement the claim omits). -/
theorem canonicalize_failure_counterexample :
    cexEntity.id = some "A1" ∧
    cexEntity.alert = some cexAlertBody ∧
    getTranslationText cexAlertBody.url = some "u" ∧
    getTranslationText cexAlertBody.headerText = some "h" ∧
    getTranslationText cexAlertBody.descriptionText = some "d" ∧
    process_response_alert exFmt cexEntity = none := by
  exact ⟨rfl, rfl, rfl, rfl, rfl, by decide⟩

/-- Claim C4 (amended): canonicalization fails exactly when one of the
required fields `id`, `url`, `title`, `description` is structurally
absent, or the relevance data is absent or malformed (`informedEntity`
missing, or an entry missing `routeId`, or missing `directionId` on a
route-matching entry); absence or malformation of the timestamps never
fails the record — each timestamp is parsed independently and any failure
degrades only that field to the `"NULL"` sentinel. -/
theorem canonicalize_failure_iff (fmt : Int → Option String) (e : RawEntity) :
    (process_response_alert fmt e = none ↔
      e.id = none ∨ e.alert = none ∨
      ∃ a, e.alert = some a ∧
        (getTranslationText a.url = none ∨
         getTranslationText a.headerText = none ∨
         getTranslationText a.descriptionText = none ∨
         a.informedEntity = none ∨
         ∃ lines, a.informedEntity = some lines ∧ computeImpacted lines = none)) ∧
    (∀ pa, process_response_alert fmt e = some pa →
      ∃ a, e.alert = some a ∧
        pa.formatted_start_date = ((startEpoch a).bind fmt).getD "NULL" ∧
        pa.formatted_end_date = ((endEpoch a).bind fmt).getD "NULL") := by
  constructor
  · cases hid : e.id with
    | none => simp [process_response_alert, hid]
    | some i =>
      cases halert : e.alert with
      | none => simp [process_response_alert, hid, halert]
      | some a =>
        cases hurl : getTranslationText a.url with
        | none => simp [process_response_alert, hid, halert, hurl]
        | some u =>
          cases htitle : getTranslationText a.headerText with
          | none => simp [process_response_alert, hid, halert, hurl, htitle]
          | some t =>
            cases hdesc : getTranslationText a.descriptionText with
            | none =>
              simp [process_response_alert, hid, halert, hurl, htitle, hdesc]
            | some dsc =>
              cases hinf : a.informedEntity with
              | none =>
                simp [process_response_alert, hid, halert, hurl, htitle, hdesc,
                  hinf]
              | some lines =>
                cases hci : computeImpacted lines with
                | none =>
                  simp [process_response_alert, hid, halert, hurl, htitle, hdesc,
                    hinf, hci]
                | some b =>
                  simp [process_response_alert, hid, halert, hurl, htitle, hdesc,
                    hinf, hci]
  · intro pa hpa
    cases hid : e.id with
    | none => simp [process_response_alert, hid] at hpa
    | some i =>
      cases halert : e.alert with
      | none => simp [process_response_alert, hid, halert] at hpa
      | some a =>
        cases hurl : getTranslationText a.url with
        | none => simp [process_response_alert, hid, halert, hurl] at hpa
        | some u =>
          cases htitle : getTranslationText a.headerText with
          | none => simp [process_response_alert, hid, halert, hurl, htitle] at hpa
          | some t =>
            cases hdesc : getTranslationText a.descriptionText with
            | none =>
              simp [process_response_alert, hid, halert, hurl, htitle, hdesc]
                at hpa
            | some dsc =>
              cases hinf : a.informedEntity with
              | none =>
                simp [process_response_alert, hid, halert, hurl, htitle, hdesc,
                  hinf] at hpa
              | some lines =>
                cases hci : computeImpacted lines with
                | none =>
                  simp [process_response_alert, hid, halert, hurl, htitle, hdesc,
                    hinf, hci] at hpa
                | some b =>
                  simp [process_response_alert, hid, halert, hurl, htitle,
                    hdesc, hinf, hci] at hpa
                  subst hpa
                  exact ⟨a, rfl, rfl, rfl⟩

/-- Witness for the amended C4: the entity with an empty `activePeriod`
canonicalizes successfully with both timestamps degraded to `"NULL"`. -/
theorem canonicalize_failure_iff_witness :
    process_response_alert exFmt degEntity = some degProcessed ∧
      ∃ a, degEntity.alert = some a ∧
        degProcessed.formatted_start_date = ((startEpoch a).bind exFmt).getD "NULL" ∧
        degProcessed.formatted_end_date = ((endEpoch a).bind exFmt).getD "NULL" :=
  ⟨by decide, (canonicalize_failure_iff exFmt degEntity).2 degProcessed (by decide)⟩

/-- Claim C2: idempotence of the pipeline.  If a run over a payload
returns the success result, re-running against the identical payload from
the store the first run left behind inserts zero new rows, makes no mail
call, and returns the same success result `("Complete.", 200)` — the
novelty check blocks every alert of the second pass. -/
theorem second_run_idempotent (fmt : Int → Option String) (w : World)
    (s0 : StoreState)
    (h : (mainRun fmt w s0).outcome = .returned "Complete." 200) :
    (mainRun fmt w (mainRun fmt w s0).store).store.rows =
        (mainRun fmt w s0).store.rows ∧
    (∀ pa, Event.insertRow pa ∉ (mainRun fmt w (mainRun fmt w s0).store).events) ∧
    (∀ ps, Event.sendEmail ps ∉ (mainRun fmt w (mainRun fmt w s0).store).events) ∧
    (mainRun fmt w (mainRun fmt w s0).store).outcome = .returned "Complete." 200 := by
  cases hresp : w.response with
  | none =>
    simp only [mainRun, hresp] at h
    simp at h
  | some feed =>
    cases hL : runLoop fmt w feed.entity (initLoopState s0) with
    | error a =>
      cases a with
      | malformed e stx =>
        simp only [mainRun, hresp, hL] at h
        simp at h
      | storeError stx =>
        simp only [mainRun, hresp, hL] at h
        simp at h
    | ok st =>
      have hstore1 : (mainRun fmt w s0).store = st.store := by
        by_cases hp : st.pending.length > 0
        · by_cases hm : w.emailOk <;> simp [mainRun, hresp, hL, hp, hm]
        · simp [mainRun, hresp, hL, hp]
      have hT1 : st.store.tableExists = true := by
        have h2 := (runLoop_ok_extends hL).1
        rw [h2]
        exact initLoopState_tableExists s0
      have hmem := runLoop_ok_mem fmt w feed.entity (initLoopState s0) st hL
      have hstore2 : (initLoopState st.store).store = st.store :=
        provisionStore_of_true hT1
      have hevents2 : (initLoopState st.store).events = [Event.checkTable] := by
        show provisionEvents st.store = _
        unfold provisionEvents
        simp [hT1]
      have hknown : ∀ e ∈ feed.entity,
          ∃ pa, process_response_alert fmt e = some pa ∧
            (pa.l1_line_impacted = true → w.storeCheckFails = false ∧
              hasRowId (initLoopState st.store).store.rows pa.alert_id) := by
        intro e he
        obtain ⟨pa, hpa, himp⟩ := hmem e he
        refine ⟨pa, hpa, fun hx => ?_⟩
        obtain ⟨hcf, hrowf⟩ := himp hx
        refine ⟨hcf, ?_⟩
        rw [hstore2]
        exact hrowf
      obtain ⟨evs, hrun2, hcl⟩ :=
        runLoop_all_known fmt w feed.entity (initLoopState st.store) hknown
      have hmain2 : mainRun fmt w st.store =
          { outcome := .returned "Complete." 200,
            store := st.store,
            events := [Event.checkTable] ++ evs } := by
        simp only [mainRun, hresp, hrun2]
        have hpend2 : (initLoopState st.store).pending = [] := rfl
        simp [hpend2, hstore2, hevents2]
      rw [hstore1, hmain2]
      refine ⟨rfl, ?_, ?_, rfl⟩
      · intro pa hm
        rcases List.mem_append.mp hm with hm | hm
        · simp at hm
        · rcases hcl _ hm with ⟨i, hEq⟩
          cases hEq
      · intro ps hm
        rcases List.mem_append.mp hm with hm | hm
        · simp at hm
        · rcases hcl _ hm with ⟨i, hEq⟩
          cases hEq

/-- Witness for C2 at the concrete one-alert environment. -/
theorem second_run_idempotent_witness :
    (mainRun exFmt exWorld (mainRun exFmt exWorld exStore).store).store.rows =
        (mainRun exFmt exWorld exStore).store.rows ∧
      (∀ pa, Event.insertRow pa ∉
        (mainRun exFmt exWorld (mainRun exFmt exWorld exStore).store).events) ∧
      (∀ ps, Event.sendEmail ps ∉
        (mainRun exFmt exWorld (mainRun exFmt exWorld exStore).store).events) ∧
      (mainRun exFmt exWorld (mainRun exFmt exWorld exStore).store).outcome =
        .returned "Complete." 200 :=
  second_run_idempotent exFmt exWorld exStore (by decide)

set_option maxRecDepth 8192

/-- Witness for C10: the first run inserts the good alert then aborts on
the malformed entity; the follow-up run never touches the id again. -/
theorem lost_notification_witness :
    (∀ ps, Event.sendEmail ps ∈
        (mainRun exFmt exWorld
          (mainRun exFmt exWorldBadSecond exStore).store).events →
      ∀ q ∈ ps, q.alert_id ≠ processedGood.alert_id) ∧
    (∀ q, Event.insertRow q ∈
        (mainRun exFmt exWorld
          (mainRun exFmt exWorldBadSecond exStore).store).events →
      q.alert_id ≠ processedGood.alert_id) :=
  lost_notification exFmt exWorldBadSecond exStore processedGood [exWorld]
    (by decide)
    ⟨"Error: Unable to process result " ++ entityStr badEntity, by decide⟩
    (mainRun exFmt exWorld (mainRun exFmt exWorldBadSecond exStore).store)
    (List.mem_cons_self _ _)

/-- Witness for C8 at a concrete environment with no payload. -/
theorem fetch_failure_result_witness :
    exWorldNoFeed.response = none ∧
      ((mainRun exFmt exWorldNoFeed exStore).outcome =
          .returned "Error: The API response is invalid" 500 ∧
        (mainRun exFmt exWorldNoFeed exStore).events = [] ∧
        (mainRun exFmt exWorldNoFeed exStore).store = exStore) :=
  ⟨rfl, fetch_failure_result exFmt exWorldNoFeed exStore rfl⟩

end Lightrail
